import Mathlib

/-!
Verification of the KingStoreV inline-keyboard editing engine.

This file shallowly embeds the Python sources of the repository
(`services/keyboard.py`, `services/callback_store.py`, `utils.py`,
`services/posts.py`, `handlers/posts.py`, `handlers/post_edit_flow.py`)
as Lean definitions and proves the specification claims about them.

Conventions of the embedding:
* Python lists become `List`, dictionaries with a fixed key set become
  structures with `Option`-valued fields (`none` = key absent), and a key
  that may be present with a falsy value (`""`, `None`, `0`) is tested with
  the explicit truthiness helpers below.
* Byte lengths (`len(s.encode("utf-8"))`) are computed by `utf8Len`,
  summing `Char.utf8Size` over the characters of the string.
* Functions that can raise return `Option`; `none` models the exception.
* `async` is erased: the awaited database/transport calls are passed in as
  explicit state (the callback store) or as an oracle of call results.
-/

set_option maxHeartbeats 1000000

namespace KingStoreV

/-- Truthiness of a Python `Optional[str]`: `None` and `""` are falsy. -/
def pyTruthyS : Option String → Bool
  | none => false
  | some s => s ≠ ""

/-- Truthiness of a Python `Optional[int]`: `None` and `0` are falsy. -/
def pyTruthyI : Option Int → Bool
  | none => false
  | some n => n ≠ 0

/-- Python `x or y` on two optional strings: `x` if truthy, else `y`. -/
def pyOr (x y : Option String) : Option String :=
  if pyTruthyS x then x else y

/-- Byte length `len(s.encode("utf-8"))` of a string. -/
def utf8Len (s : String) : Nat :=
  (s.toList.map Char.utf8Size).sum

/-- Longest prefix of the characters whose total UTF-8 size is at most `n`.
`s.encode("utf-8")[:n].decode("utf-8", errors="ignore")` on a valid UTF-8
string equals this: byte-truncation can only cut the final character, and
`errors="ignore"` then drops its dangling bytes. -/
def utf8TruncAux : List Char → Nat → List Char
  | [], _ => []
  | c :: cs, n => if c.utf8Size ≤ n then c :: utf8TruncAux cs (n - c.utf8Size) else []

/-- Python `s.encode("utf-8")[:n].decode("utf-8", errors="ignore")`. -/
def utf8Truncate (s : String) (n : Nat) : String :=
  String.mk (utf8TruncAux s.toList n)

/-- Resolution of a Python list index `l[i]` (negative indices count from
the end); `none` models `IndexError`. -/
def pyIndex (len : Nat) (i : Int) : Option Nat :=
  let j : Int := if i < 0 then (len : Int) + i else i
  if 0 ≤ j ∧ j < (len : Int) then some j.toNat else none

/-! ### Button grids

A grid cell in the source is normally a `dict` with keys among
`text`, `url`, `callback_data`, `callback`, `data` (all string-valued in
this program, cf. the persisted shape `{text, url?, callback_data?}`);
`Btn.raw s` models a non-`dict` cell, `s` being its `str()` rendering. -/

structure BtnDict where
  text : Option String := none
  url : Option String := none
  callback_data : Option String := none
  callback : Option String := none
  data : Option String := none
  deriving Repr, DecidableEq

inductive Btn
  | dict (d : BtnDict)
  | raw (s : String)
  deriving Repr, DecidableEq

abbrev Keyboard := List (List Btn)

instance : Inhabited Btn := ⟨Btn.raw ""⟩

/-- Constant `MAX_CALLBACK_BYTES` from `services/keyboard.py`. -/
def MAX_CALLBACK_BYTES : Nat := 64

/-! ### Grid mutation algorithms (`services/keyboard.py`)

The mutation helpers are generic in the cell type, as the Python code
never inspects the cells it moves. -/

/-- Function `move_button(keyboard, from_r, from_c, to_r, to_c)` from
`services/keyboard.py`. `none` models an uncaught `IndexError` (Python
resolves a negative `to_r` from the end of the list and raises when it is
before the start). -/
def move_button {α : Type} [Inhabited α] (keyboard : List (List α))
    (from_r from_c to_r to_c : Int) : Option (List (List α)) :=
  if keyboard.isEmpty then some keyboard
  else if ¬ (0 ≤ from_r ∧ from_r < (keyboard.length : Int)) then some keyboard
  else
    let fr := from_r.toNat
    let row := keyboard.getD fr []
    if ¬ (0 ≤ from_c ∧ from_c < (row.length : Int)) then some keyboard
    else
      let fc := from_c.toNat
      let btn := row.getD fc default
      let row1 := row.eraseIdx fc
      let kb1 := keyboard.set fr row1
      let step :=
        if row1.isEmpty then
          (kb1.eraseIdx fr, if from_r < to_r then to_r - 1 else to_r)
        else (kb1, to_r)
      let kb2 := step.1
      let tr := step.2
      let kb3 := kb2 ++ List.replicate (tr + 1 - (kb2.length : Int)).toNat ([] : List α)
      match pyIndex kb3.length tr with
      | none => none
      | some i =>
        let target_row := kb3.getD i []
        let tc0 : Int := if to_c < 0 then 0 else to_c
        let tc : Nat := if (target_row.length : Int) < tc0 then target_row.length else tc0.toNat
        some (kb3.set i (target_row.take tc ++ btn :: target_row.drop tc))

/-- The move algorithm exactly as claim C1 words it (for a target row
index that exists after growth, i.e. a natural number): remove the button
at the source; if the source row became empty, splice it out and
decrement a target row index that lay after it; grow the grid with empty
rows until `to_r` exists; clamp `to_c` into `[0, len(target_row)]`; insert
positionally. -/
def move_button_claim {α : Type} [Inhabited α] (keyboard : List (List α))
    (from_r from_c to_r0 : Nat) (to_c : Int) : List (List α) :=
  let row := keyboard.getD from_r []
  let btn := row.getD from_c default
  let row1 := row.eraseIdx from_c
  let kb1 := keyboard.set from_r row1
  let pruned := row1.isEmpty
  let kb2 := if pruned then kb1.eraseIdx from_r else kb1
  let to_r := if pruned ∧ from_r < to_r0 then to_r0 - 1 else to_r0
  let kb3 := kb2 ++ List.replicate (to_r + 1 - kb2.length) ([] : List α)
  let target_row := kb3.getD to_r []
  let tc : Nat :=
    if to_c < 0 then 0
    else if (target_row.length : Int) < to_c then target_row.length
    else to_c.toNat
  kb3.set to_r (target_row.take tc ++ btn :: target_row.drop tc)

/-- Row-major chunking: `[flat[i:i+k] for i in range(0, len(flat), k)]`
for a positive step `k`. -/
def chunks {α : Type} (k : Nat) : List α → List (List α)
  | [] => []
  | x :: xs => (x :: xs.take (k - 1)) :: chunks k (xs.drop (k - 1))
  termination_by l => l.length
  decreasing_by simp [List.length_drop]; omega

/-- Function `reformat_columns(keyboard, cols)` from `services/keyboard.py`. -/
def reformat_columns {α : Type} (keyboard : List (List α)) (cols : Int) :
    List (List α) :=
  if keyboard.isEmpty then keyboard
  else
    let flat := keyboard.flatten
    let c : Nat := if cols ≤ 0 then 1 else cols.toNat
    chunks c flat

/-- Total number of buttons in a grid. -/
def total_buttons {α : Type} (kb : List (List α)) : Nat :=
  (kb.map List.length).sum

/-! ### URL validation (`utils.py`)

`validate_button_url` strips the input, tries the anchored regex
`^https?://t\.me/([^/]+)/(\d+)$` (case-insensitive), and otherwise accepts
exactly the inputs that `urllib.parse.urlparse` splits into an `http` or
`https` scheme with a non-empty netloc.  The embedding reproduces the
scheme/netloc extraction of CPython's `urlsplit`. -/

/-- The whitespace set of Python `str.strip()` (Unicode whitespace). -/
def isPyWhitespace (c : Char) : Bool :=
  c = ' ' || c = '\t' || c = '\n' || c = '\x0b' || c = '\x0c' || c = '\r' ||
  c = '\x1c' || c = '\x1d' || c = '\x1e' || c = '\x1f' || c = '\x85' ||
  c = '\xa0' || c = ' ' || c = ' ' || c = ' ' || c = ' ' ||
  c = ' ' || c = ' ' || c = ' ' || c = ' ' || c = ' ' ||
  c = ' ' || c = ' ' || c = ' ' || c = ' ' || c = ' ' ||
  c = ' ' || c = ' ' || c = '　'

/-- Python `s.strip()`. -/
def pyStrip (s : String) : String :=
  String.mk (((s.toList.dropWhile isPyWhitespace).reverse.dropWhile
    isPyWhitespace).reverse)

/-- ASCII decimal digit, modelling `\d` of the source regex.  Python's
`\d` also matches the non-ASCII Unicode decimal digits (category Nd),
which are not enumerated here: a deep link whose message id uses such
digits is normalized by the source but falls into the accept-as-is
generic clause of the model — the Valid verdict agrees (scheme and host
still parse), only the returned URL is then the stripped input instead of
the normalized form. -/
def isAsciiDigit (c : Char) : Bool := '0' ≤ c && c ≤ '9'

/-- Anchored match of `TELEGRAM_MESSAGE_URL_RE =
^https?://t\.me/([^/]+)/(\d+)$` with `re.IGNORECASE` (case-insensitivity
modelled for ASCII).  Returns the two capture groups.  The decomposition is
unique because group 1 cannot contain `/` and group 2 is all digits. -/
def tg_message_url_match (l : List Char) : Option (List Char × List Char) :=
  let rest? : Option (List Char) :=
    if (l.take 13).map Char.toLower = "https://t.me/".toList then some (l.drop 13)
    else if (l.take 12).map Char.toLower = "http://t.me/".toList then some (l.drop 12)
    else none
  match rest? with
  | none => none
  | some rest =>
    let g1 := rest.takeWhile (fun c => c ≠ '/')
    let rest1 := rest.dropWhile (fun c => c ≠ '/')
    match rest1 with
    | [] => none
    | _ :: g2 =>
      if g1 ≠ [] ∧ g2 ≠ [] ∧ g2.all isAsciiDigit then some (g1, g2) else none

/-- Characters removed by CPython `urlsplit` before parsing
(`_UNSAFE_URL_BYTES_TO_REMOVE`). -/
def UNSAFE_URL_CHARS : List Char := ['\t', '\r', '\n']

/-- The `scheme_chars` of `urllib.parse`. -/
def scheme_chars : List Char :=
  "abcdefghijklmnopqrstuvwxyzABCDEFGHIJKLMNOPQRSTUVWXYZ0123456789+-.".toList

/-- Scheme extraction of CPython `urlsplit`: split at the first `:` when
the prefix is a well-formed scheme (leading ASCII letter, scheme chars
only); the scheme is lowercased.  Returns `(scheme, remainder)`. -/
def urlsplit_scheme_rest (l : List Char) : List Char × List Char :=
  match l.findIdx? (fun c => c = ':') with
  | some i =>
    if 0 < i ∧ (l.headD ' ').isAlpha ∧ (l.take i).all (fun c => c ∈ scheme_chars)
    then ((l.take i).map Char.toLower, l.drop (i + 1))
    else ([], l)
  | none => ([], l)

/-- Python `s.split(sep)` for a one-character separator: every occurrence
splits, adjacent separators yield empty parts, and the empty string
splits to `[""]`. -/
def splitOnChar (ch : Char) : List Char → List (List Char)
  | [] => [[]]
  | c :: cs =>
    let r := splitOnChar ch cs
    if c = ch then [] :: r
    else
      match r with
      | [] => [[c]]
      | p :: ps => (c :: p) :: ps

/-- ASCII hex digit (`string.hexdigits`, the `_HEX_DIGITS` of
`ipaddress`). -/
def isPyHexDigit (c : Char) : Bool :=
  ('0' ≤ c && c ≤ '9') || ('a' ≤ c && c ≤ 'f') || ('A' ≤ c && c ≤ 'F')

/-- Decimal value of an ASCII digit string. -/
def decDigitsVal (l : List Char) : Nat :=
  l.foldl (fun a c => a * 10 + (c.toNat - '0'.toNat)) 0

/-- One octet per `ipaddress.IPv4Address._parse_octet`: non-empty, ASCII
decimal digits only, at most 3 of them, no leading zero (except `0`
itself), value at most 255. -/
def ipv4_octet_ok (s : List Char) : Bool :=
  s ≠ [] && s.all isAsciiDigit && s.length ≤ 3 &&
  (s = ['0'] || s.headD '0' ≠ '0') && decDigitsVal s ≤ 255

/-- Validity per `ipaddress.IPv4Address`: no `/`, non-empty, exactly four
valid octets separated by dots. -/
def ipv4_valid (l : List Char) : Bool :=
  !l.contains '/' && l ≠ [] &&
  (let parts := splitOnChar '.' l
   parts.length = 4 && parts.all ipv4_octet_ok)

/-- One hextet per `ipaddress.IPv6Address._parse_hextet`: non-empty, at
most four ASCII hex digits. -/
def ipv6_hextet_ok (s : List Char) : Bool :=
  s ≠ [] && s.all isPyHexDigit && s.length ≤ 4

/-- Validity of the address body per
`ipaddress.IPv6Address._ip_int_from_string`: split on `:` into at least 3
and (after converting a dotted-quad IPv4 suffix into two hextets) at most
9 parts; at most one empty inner part (the `::` gap), a leading or
trailing empty part only as part of a leading/trailing `::`; the parts on
both sides of the gap must leave at least one hextet skipped; every
retained part is a valid hextet.  The IPv4 suffix conversion appends two
synthetic hextets (`'%x'` renderings, always valid and non-empty —
represented here by `['0']`), whose textual value does not affect
validity. -/
def ipv6_core (l : List Char) : Bool :=
  if l = [] then false
  else
    let parts0 := splitOnChar ':' l
    if parts0.length < 3 then false
    else
      let lastPart := parts0.getLastD []
      let withV4 : Option (List (List Char)) :=
        if lastPart.contains '.' then
          if ipv4_valid lastPart then some (parts0.dropLast ++ [['0'], ['0']])
          else none
        else some parts0
      match withV4 with
      | none => false
      | some parts =>
        let n := parts.length
        if 9 < n then false
        else
          let inner := (List.range n).filter
            (fun i => 0 < i ∧ i < n - 1 ∧ parts.getD i [] = [])
          if 1 < inner.length then false
          else
            match inner with
            | [] =>
              n = 8 && parts.getD 0 [] ≠ [] && parts.getD (n - 1) [] ≠ [] &&
              parts.all ipv6_hextet_ok
            | skip :: _ =>
              let hi0 := skip
              let lo0 := n - skip - 1
              if parts.getD 0 [] = [] ∧ hi0 - 1 ≠ 0 then false
              else if parts.getD (n - 1) [] = [] ∧ lo0 - 1 ≠ 0 then false
              else
                let hi := if parts.getD 0 [] = [] then hi0 - 1 else hi0
                let lo := if parts.getD (n - 1) [] = [] then lo0 - 1 else lo0
                if 8 ≤ hi + lo then false
                else
                  (parts.take hi).all ipv6_hextet_ok &&
                  (parts.drop (n - lo)).all ipv6_hextet_ok

/-- Validity per `ipaddress.IPv6Address`: no `/`; an optional `%scope`
suffix (split at the first `%`; the scope must be non-empty and contain
no further `%`); the address body as in `ipv6_core`. -/
def ipv6_valid (l : List Char) : Bool :=
  !l.contains '/' &&
  (let addr := l.takeWhile (fun c => c ≠ '%')
   let rest := l.dropWhile (fun c => c ≠ '%')
   match rest with
   | [] => ipv6_core addr
   | _ :: scope => scope ≠ [] && !scope.contains '%' && ipv6_core addr)

/-- The IPvFuture arm of `_check_bracketed_host`:
`re.match(r"\Av[a-fA-F0-9]+\..+\Z", hostname)` — a lowercase `v`, one or
more hex digits, a dot, then at least one character (`.` does not match a
newline; backtracking is immaterial since the hex class excludes the
dot). -/
def ipvfuture_ok (l : List Char) : Bool :=
  match l with
  | 'v' :: rest =>
    let hexs := rest.takeWhile isPyHexDigit
    let after := rest.dropWhile isPyHexDigit
    hexs ≠ [] &&
      (match after with
       | '.' :: tail => tail ≠ [] && tail.all (fun c => c ≠ '\n')
       | _ => false)
  | _ => false

/-- CPython `urllib.parse._check_bracketed_host` (3.11+): a hostname
starting with (lowercase) `v` must match the IPvFuture pattern; any other
hostname must parse under `ipaddress.ip_address` and not be an IPv4
address — i.e. it must be a valid (possibly scoped) IPv6 address. -/
def bracketed_host_ok (host : List Char) : Bool :=
  match host with
  | 'v' :: _ => ipvfuture_ok host
  | _ => !ipv4_valid host && ipv6_valid host

/-- Netloc extraction of CPython `urlsplit`: present only after `//`, runs
up to the first `/`, `?` or `#`.  `none` models `urlsplit` raising
`ValueError` on a malformed bracketed host: unbalanced `[`/`]` always
raises, and a balanced pair delimits a bracketed host
(`netloc.partition('[')[2].partition(']')[0]`) that must pass
`_check_bracketed_host` (CPython 3.11+; earlier versions skip that check
and accept any balanced pair).  The NFKC guard of `_checknetloc`, which
raises only for non-ASCII netlocs whose compatibility normalization
introduces a separator character, is not modelled. -/
def urlsplit_netloc (rest : List Char) : Option (List Char) :=
  if rest.take 2 = ['/', '/'] then
    let netloc := (rest.drop 2).takeWhile (fun c => c ≠ '/' ∧ c ≠ '?' ∧ c ≠ '#')
    if (netloc.contains '[' ∧ ¬ netloc.contains ']') ∨
        (netloc.contains ']' ∧ ¬ netloc.contains '[') then none
    else if netloc.contains '[' ∧ netloc.contains ']' then
      let bh := ((netloc.dropWhile (fun c => c ≠ '[')).drop 1).takeWhile
        (fun c => c ≠ ']')
      if bracketed_host_ok bh then some netloc else none
    else some netloc
  else some []

/-- The `(scheme, netloc)` view of `urlparse(u)` used by
`validate_button_url`, with the `\t`/`\r`/`\n` removal that `urlsplit`
performs on its input. -/
def urlsplit_for_url (u : String) : List Char × Option (List Char) :=
  let cleaned := u.toList.filter (fun c => ¬ c ∈ UNSAFE_URL_CHARS)
  let sr := urlsplit_scheme_rest cleaned
  (sr.1, urlsplit_netloc sr.2)

/-- Function `validate_button_url(url)` from `utils.py`.  Returns
`(is_valid, normalized_url_or_none)`; the `try/except` around `urlparse`
is modelled by the `none` case of `urlsplit_for_url`. -/
def validate_button_url (url : String) : Bool × Option String :=
  if url = "" then (false, none)
  else
    let u := pyStrip url
    match tg_message_url_match u.toList with
    | some (g1, g2) =>
      (true, some ("https://t.me/" ++ String.mk g1 ++ "/" ++ String.mk g2))
    | none =>
      match urlsplit_for_url u with
      | (_, none) => (false, none)
      | (scheme, some netloc) =>
        if ¬ (scheme = "http".toList ∨ scheme = "https".toList) then (false, none)
        else if netloc = [] then (false, none)
        else (true, some u)

/-! ### Structural validation (`services/keyboard.py`,
`validate_keyboard_structure`)

The source also rejects inputs that are not lists of lists; that shape is
enforced by the Lean types and not modelled.  Validation normalizes valid
URLs in place while scanning, stops at the first error, and returns the
(partially) normalized keyboard alongside the verdict. -/

/-- The per-button body of the validation loop at coordinates
`(ridx, cidx)`: returns `(ok, message, possibly-normalized button)`. -/
def validate_button (ridx cidx : Nat) (btn : Btn) : Bool × String × Btn :=
  match btn with
  | .raw s =>
    (false, "Button at " ++ toString ridx ++ ":" ++ toString cidx ++
      " must be a dict", .raw s)
  | .dict d =>
    if d.text = none then
      (false, "Button at " ++ toString ridx ++ ":" ++ toString cidx ++
        " missing text", .dict d)
    else
      let has_url := pyTruthyS d.url
      let has_cb := pyTruthyS d.callback_data || pyTruthyS d.callback
      if ¬ (has_url || has_cb) then
        (false, "Button at " ++ toString ridx ++ ":" ++ toString cidx ++
          " must have url or callback_data", .dict d)
      else
        let urlStep : Bool × BtnDict :=
          if has_url then
            let vr := validate_button_url (d.url.getD "")
            if vr.1 then (true, { d with url := vr.2 }) else (false, d)
          else (true, d)
        if urlStep.1 = false then
          (false, "Button at " ++ toString ridx ++ ":" ++ toString cidx ++
            " has invalid url", .dict urlStep.2)
        else
          if has_cb then
            let cb_val := (pyOr (pyOr d.callback_data d.callback) (some "")).getD ""
            if MAX_CALLBACK_BYTES < utf8Len cb_val then
              (false, "callback_data at " ++ toString ridx ++ ":" ++
                toString cidx ++ " too long (max 64 bytes)", .dict urlStep.2)
            else (true, "OK", .dict urlStep.2)
          else (true, "OK", .dict urlStep.2)

/-- Validation loop over one row starting at column `cidx`. -/
def validate_row (ridx : Nat) (cidx : Nat) : List Btn → Bool × String × List Btn
  | [] => (true, "OK", [])
  | b :: rest =>
    let r := validate_button ridx cidx b
    if r.1 = false then (false, r.2.1, r.2.2 :: rest)
    else
      let rr := validate_row ridx (cidx + 1) rest
      (rr.1, rr.2.1, r.2.2 :: rr.2.2)

/-- Validation loop over the rows starting at row `ridx`. -/
def validate_rows (ridx : Nat) : Keyboard → Bool × String × Keyboard
  | [] => (true, "OK", [])
  | row :: rest =>
    let r := validate_row ridx 0 row
    if r.1 = false then (false, r.2.1, r.2.2 :: rest)
    else
      let rr := validate_rows (ridx + 1) rest
      (rr.1, rr.2.1, r.2.2 :: rr.2.2)

/-- Function `validate_keyboard_structure(keyboard)` from `services/keyboard.py`
(`none` models the Python `None` input, accepted as `True, "OK"`). -/
def validate_keyboard_structure (keyboard : Option Keyboard) :
    Bool × String × Option Keyboard :=
  match keyboard with
  | none => (true, "OK", none)
  | some kb =>
    let r := validate_rows 0 kb
    (r.1, r.2.1, some r.2.2)

/-- What the code actually requires of a single button (the amended C5):
a dict with a `text` key (an empty text is allowed), at least one truthy
target among `url`/`callback_data`/`callback` (both a URL and a token may
be present simultaneously), a truthy URL must pass `validate_button_url`,
and the first truthy token must be at most 64 UTF-8 bytes. -/
def button_struct_ok (b : Btn) : Bool :=
  match b with
  | .raw _ => false
  | .dict d =>
    (d.text ≠ none) &&
    (pyTruthyS d.url || pyTruthyS d.callback_data || pyTruthyS d.callback) &&
    (!pyTruthyS d.url || (validate_button_url (d.url.getD "")).1) &&
    (utf8Len ((pyOr (pyOr d.callback_data d.callback) (some "")).getD "") ≤
      MAX_CALLBACK_BYTES)

/-! ### Long-Payload Store (`services/callback_store.py`)

`store_payload`/`get_payload` run against the `callback_payloads` table.
The entropy of `secrets.token_hex` is an explicit byte stream `rng`
consumed from offset `pos`; an oracle `fail` says which store calls raise
(database not initialized, or the INSERT failing — which also covers the
negligible case of a duplicate generated id).  Rows are kept in parsed
form: `json.loads(json.dumps(p))` is the identity on these
string-to-string dicts, so the JSON text is elided. -/

/-- Lowercase hex digit table of `secrets.token_hex`. -/
def hexChar (n : Nat) : Char := "0123456789abcdef".toList.getD n '0'

/-- Function `make_short_id(nbytes)` from `services/callback_store.py`:
`secrets.token_hex(nbytes)`, two hex digits per random byte. -/
def make_short_id (rng : Nat → Fin 256) (pos : Nat) (nbytes : Nat) : String :=
  String.mk (((List.range nbytes).map fun i =>
    [hexChar ((rng (pos + i)).val / 16), hexChar ((rng (pos + i)).val % 16)]).flatten)

structure CallbackStoreState where
  rng : Nat → Fin 256
  pos : Nat
  fail : Nat → Bool
  calls : Nat
  rows : List (String × List (String × String))

/-- Function `store_payload(payload)`: generate `make_short_id(6)`, INSERT the row,
return the id; `none` models the raised exception when the oracle says
this call fails. -/
def store_payload (st : CallbackStoreState) (payload : List (String × String)) :
    Option String × CallbackStoreState :=
  if st.fail st.calls then (none, { st with calls := st.calls + 1 })
  else
    let payload_id := make_short_id st.rng st.pos 6
    (some payload_id,
      { st with
          pos := st.pos + 6
          calls := st.calls + 1
          rows := (payload_id, payload) :: st.rows })

/-- Function `get_payload(payload_id)`: fetch and parse; `none` when absent. -/
def get_payload (st : CallbackStoreState) (payload_id : String) :
    Option (List (String × String)) :=
  st.rows.lookup payload_id

/-! ### The builder (`build_inline_markup` in `services/keyboard.py`)

The `await`ed store calls are threaded through `CallbackStoreState`; a
`None` keyboard argument (`keyboard or []`) is not modelled, the input
being typed as a list. -/

/-- Transport `InlineKeyboardButton`: a URL button or a callback button. -/
inductive InlineBtn
  | url (text href : String)
  | cb (text cb : String)
  deriving Repr, DecidableEq

/-- The per-button body of `build_inline_markup`: read `text` (default
`"Button"`), the first truthy of `callback_data`/`callback`/`data`, and
`url`; drop an invalid URL (logged in the source); then emit a URL
button, a direct callback button (token ≤ 64 bytes), an externalized
`kb_payload:<id>` reference (or, if storing raises, the byte-truncated
token), or the fallback `btn:<text[:20]>` button. -/
def build_button (btn : Btn) (st : CallbackStoreState) :
    InlineBtn × CallbackStoreState :=
  let text := match btn with
    | .dict d => d.text.getD "Button"
    | .raw s => s
  let cb0 : Option String := match btn with
    | .dict d => pyOr (pyOr d.callback_data d.callback) d.data
    | .raw _ => none
  let url0 : Option String := match btn with
    | .dict d => d.url
    | .raw _ => none
  let url1 : Option String :=
    if pyTruthyS url0 then
      let vr := validate_button_url (url0.getD "")
      if vr.1 then vr.2 else none
    else url0
  if pyTruthyS url1 then (.url text (url1.getD ""), st)
  else if pyTruthyS cb0 then
    let s := cb0.getD ""
    if utf8Len s ≤ MAX_CALLBACK_BYTES then (.cb text s, st)
    else
      match store_payload st [("callback", s)] with
      | (some pid, st1) => (.cb text ("kb_payload:" ++ pid), st1)
      | (none, st1) => (.cb text (utf8Truncate s MAX_CALLBACK_BYTES), st1)
  else
    let fb := "btn:" ++ String.mk (text.toList.take 20)
    let fb1 := if MAX_CALLBACK_BYTES < utf8Len fb then
        utf8Truncate fb MAX_CALLBACK_BYTES
      else fb
    (.cb text fb1, st)

/-- The inner loop of `build_inline_markup` over one row. -/
def build_row (row : List Btn) (st : CallbackStoreState) :
    List InlineBtn × CallbackStoreState :=
  match row with
  | [] => ([], st)
  | b :: rest =>
    let r := build_button b st
    let rr := build_row rest r.2
    (r.1 :: rr.1, rr.2)

/-- Function `build_inline_markup(keyboard)` from `services/keyboard.py`; rows
that emitted no buttons are dropped. -/
def build_inline_markup (keyboard : Keyboard) (st : CallbackStoreState) :
    List (List InlineBtn) × CallbackStoreState :=
  match keyboard with
  | [] => ([], st)
  | row :: rest =>
    let r := build_row row st
    let rr := build_inline_markup rest r.2
    (if r.1.isEmpty then rr.1 else r.1 :: rr.1, rr.2)

structure EditSession where
  post_id : Option Int
  chat_id : String
  message_id : Int
  orig_text : Option String
  orig_photo_file_id : Option String
  orig_keyboard : Keyboard
  text : Option String
  photo_file_id : Option String
  keyboard : Keyboard
  awaiting : Option String
  keyboard_staged : Bool
  deriving Repr, DecidableEq

inductive TgResult
  | ok
  | badRequest
  deriving Repr, DecidableEq

/-- Results of the transport/repository calls `apply_all` can make:
`edit_message_media`, `edit_message_text`, `edit_message_caption`,
`edit_message_reply_markup`, and the three `update_post_*` writes (a
`false` db flag models the raised-and-logged exception). -/
structure Transport where
  edit_media : TgResult
  edit_text : TgResult
  edit_caption : TgResult
  edit_markup : TgResult
  db_text_ok : Bool
  db_photo_ok : Bool
  db_kb_ok : Bool

inductive Event
  | editMessageMedia (photo : String)
  | editMessageText (text : String)
  | editMessageCaption (text : String)
  | editMessageReplyMarkup
  | dbUpdateText (t : Option String)
  | dbUpdatePhoto (p : String)
  | dbUpdateKeyboard (kb : Keyboard)
  deriving Repr, DecidableEq

structure ApplyAllOutcome where
  events : List Event
  answer : String
  session : Option EditSession
  store : CallbackStoreState

/-- The DB phase of `apply_all` (one `try` block: a raising update is
logged and the remaining updates of the block are skipped). -/
def apply_all_db_events (sess : EditSession) (tr : Transport)
    (text photo : Option String) (kb : Keyboard) : List Event :=
  if pyTruthyI sess.post_id then
    let e1 : List Event :=
      if sess.orig_text ≠ text then [.dbUpdateText text] else []
    if sess.orig_text ≠ text ∧ tr.db_text_ok = false then e1
    else
      let e2 : List Event :=
        if sess.orig_photo_file_id ≠ photo ∧ pyTruthyS photo then
          [.dbUpdatePhoto (photo.getD "")]
        else []
      if sess.orig_photo_file_id ≠ photo ∧ pyTruthyS photo ∧
          tr.db_photo_ok = false then e1 ++ e2
      else e1 ++ e2 ++ [.dbUpdateKeyboard kb]
  else []

/-- Step 3 of `apply_all`: rebuild the markup (`build_inline_markup(kb)
if kb else None` — nb. the source does not await this call) and push it;
on success run the DB phase, snapshot and destroy the session. -/
def apply_all_step3 (sess : EditSession) (tr : Transport)
    (st : CallbackStoreState) (evs : List Event) : ApplyAllOutcome :=
  let kb := sess.keyboard
  let st1 := if kb.isEmpty then st else (build_inline_markup kb st).2
  match tr.edit_markup with
  | .badRequest =>
    { events := evs ++ [.editMessageReplyMarkup]
      answer := "Не удалось обновить клавиатуру"
      session := some sess
      store := st1 }
  | .ok =>
    { events := evs ++ [.editMessageReplyMarkup] ++
        apply_all_db_events sess tr sess.text sess.photo_file_id kb
      answer := "Изменения применены."
      session := none
      store := st1 }

/-- Step 2 of `apply_all`: text/caption update if the staged text
changed, with the media-vs-text fallback of `apply_text`. -/
def apply_all_step2 (sess : EditSession) (tr : Transport)
    (st : CallbackStoreState) (evs : List Event) : ApplyAllOutcome :=
  if sess.orig_text ≠ sess.text then
    match sess.text with
    | none => apply_all_step3 sess tr st evs
    | some tx =>
      let send_text := if tx = "" then "\u200b" else tx
      match tr.edit_text with
      | .ok => apply_all_step3 sess tr st (evs ++ [.editMessageText send_text])
      | .badRequest =>
        match tr.edit_caption with
        | .ok => apply_all_step3 sess tr st
            (evs ++ [.editMessageText send_text, .editMessageCaption tx])
        | .badRequest =>
          { events := evs ++ [.editMessageText send_text, .editMessageCaption tx]
            answer := "Не удалось обновить текст/подпись"
            session := some sess
            store := st }
  else apply_all_step3 sess tr st evs

/-- The `apply_all` branch of `cb_editpost_main`: steps in fixed order —
(1) media replacement if the staged photo changed (removal unsupported:
abort), (2) text/caption update if changed, (3) unconditional keyboard
push, then the DB phase, snapshots, and session destruction. -/
def apply_all (sess : EditSession) (tr : Transport)
    (st : CallbackStoreState) : ApplyAllOutcome :=
  let photo := sess.photo_file_id
  if sess.orig_photo_file_id ≠ photo then
    if pyTruthyS photo then
      match tr.edit_media with
      | .badRequest =>
        { events := [.editMessageMedia (photo.getD "")]
          answer := "Не удалось заменить медиа"
          session := some sess
          store := st }
      | .ok => apply_all_step2 sess tr st [.editMessageMedia (photo.getD "")]
    else
      { events := []
        answer := "Удаление медиа не поддерживается автоматически."
        session := some sess
        store := st }
  else apply_all_step2 sess tr st []

/-! ### Post repository and publish persistence (`services/posts.py`,
`handlers/posts.py::cb_publish`) -/

/-- The `allowed` field set of `services/posts.py::update_post`; a field
whose name is not in this set is silently dropped from the UPDATE. -/
def update_post_allowed : List String :=
  ["text", "photo_file_id", "keyboard_json", "status",
   "published_message_id", "published_link"]

/-- The SET columns `update_post` builds for a given keyword-field list
(`updated_at` is always touched). -/
def update_post_set_columns (fields : List String) : List String :=
  (fields.filter (fun k => k ∈ update_post_allowed)) ++ ["updated_at"]

/-- The column list of the INSERT in `services/posts.py::create_post`. -/
def create_post_columns : List String :=
  ["author_id", "text", "photo_file_id", "keyboard_json", "status",
   "created_at", "updated_at", "published_message_id", "published_link"]

/-- A `posts` row (schema of `tests/test_models.py` plus the
`published_channel` column the model layer reads and writes). -/
structure PostRow where
  id : Option Int
  author_id : Int
  text : Option String
  photo_file_id : Option String
  keyboard_json : Option String
  status : String
  created_at : Option String
  updated_at : Option String
  published_message_id : Option Int
  published_link : Option String
  published_channel : Option String
  deriving Repr, DecidableEq

/-- Row effect of `update_post(post_id, status="published",
published_message_id=mid, published_link=link, published_channel=chan)`
as `cb_publish` invokes it: a named field is written only if its name
survives the `allowed` filter. -/
def publish_update_row (row : PostRow) (mid : Int) (link chan now : String) :
    PostRow :=
  let cols := update_post_set_columns
    ["status", "published_message_id", "published_link", "published_channel"]
  { row with
      status := if "status" ∈ cols then "published" else row.status
      published_message_id :=
        if "published_message_id" ∈ cols then some mid
        else row.published_message_id
      published_link :=
        if "published_link" ∈ cols then some link else row.published_link
      published_channel :=
        if "published_channel" ∈ cols then some chan else row.published_channel
      updated_at := if "updated_at" ∈ cols then some now else row.updated_at }

/-- The row created by `create_post(post)`: only columns in the INSERT
list receive the post's values; a column missing from the list — notably
`published_channel` — is left at its SQL default (NULL); the repository
assigns a fresh id. -/
def create_post_row (post : PostRow) (new_id : Int) : PostRow :=
  { id := some new_id
    author_id := post.author_id
    text := if "text" ∈ create_post_columns then post.text else none
    photo_file_id :=
      if "photo_file_id" ∈ create_post_columns then post.photo_file_id else none
    keyboard_json :=
      if "keyboard_json" ∈ create_post_columns then post.keyboard_json else none
    status := if "status" ∈ create_post_columns then post.status else "draft"
    created_at :=
      if "created_at" ∈ create_post_columns then post.created_at else none
    updated_at :=
      if "updated_at" ∈ create_post_columns then post.updated_at else none
    published_message_id :=
      if "published_message_id" ∈ create_post_columns then
        post.published_message_id
      else none
    published_link :=
      if "published_link" ∈ create_post_columns then post.published_link
      else none
    published_channel :=
      if "published_channel" ∈ create_post_columns then post.published_channel
      else none }

/-- Python `s.strip(ch)`: remove `ch` from both ends. -/
def pyStripChar (ch : Char) (s : String) : String :=
  String.mk (((s.toList.dropWhile (fun c => c = ch)).reverse.dropWhile
    (fun c => c = ch)).reverse)

/-- Python `s.lstrip(ch)`. -/
def pyLStripChar (ch : Char) (s : String) : String :=
  String.mk (s.toList.dropWhile (fun c => c = ch))

/-- Python `s.startswith(pre)` (character-level prefix test). -/
def pyStartsWith (s pre : String) : Bool :=
  pre.toList.isPrefixOf s.toList

/-- The shareable-link derivation of `cb_publish` (string channel ids; an
integer channel id reaches the same numeric branch through `str()`;
`channel_id[4:]` drops four characters). -/
def published_link_for (channel_id : String) (mid : Int) : String :=
  if pyStartsWith channel_id "@" then
    "https://t.me/" ++ pyStripChar '@' channel_id ++ "/" ++ toString mid
  else
    let cid_short :=
      if pyStartsWith channel_id "-100" then String.mk (channel_id.toList.drop 4)
      else if pyStartsWith channel_id "-" then pyLStripChar '-' channel_id
      else channel_id
    "https://t.me/c/" ++ cid_short ++ "/" ++ toString mid

/-- The persistence step of `cb_publish` after a successful send: update
the existing row when the session post has a truthy id, otherwise set the
publication fields on the in-memory post and create a new row. -/
def cb_publish_persist (post : PostRow) (channel_id : String) (mid : Int)
    (now : String) (new_id : Int) : PostRow :=
  let link := published_link_for channel_id mid
  if pyTruthyI post.id then publish_update_row post mid link channel_id now
  else
    create_post_row
      { post with
          status := "published"
          published_message_id := some mid
          published_link := some link
          published_channel := some channel_id } new_id

/-- Emptiness test `isEmpty` as a propositional equation, for rewriting. -/
lemma isEmpty_iff_eq_nil {α : Type} (l : List α) : l.isEmpty = true ↔ l = [] := by
  cases l <;> simp [List.isEmpty]

lemma chunks_nil_iff {α : Type} (k : Nat) (l : List α) :
    chunks k l = [] ↔ l = [] := by
  cases l with
  | nil => simp [chunks]
  | cons x xs => simp [chunks]

lemma chunks_flatten {α : Type} (k : Nat) (l : List α) :
    (chunks k l).flatten = l := by
  induction l using chunks.induct k with
  | case1 => simp [chunks]
  | case2 x xs ih =>
    simp [chunks, List.flatten_cons, ih, List.cons_append, List.take_append_drop]

/-- C9: `reformat_columns` is idempotent for every column count `n ≥ 1`
(first conjunct), and a non-positive `n` is treated as `n = 1` (second
conjunct); `reformat_columns` flattens the grid in row-major order and
re-chunks it into rows of `n` buttons. -/
theorem reformat_columns_idempotent :
    (∀ (G : Keyboard) (n : Int), 1 ≤ n →
      reformat_columns (reformat_columns G n) n = reformat_columns G n) ∧
    (∀ (G : Keyboard) (n : Int), n ≤ 0 →
      reformat_columns G n = reformat_columns G 1) := by
  constructor
  · intro G n hn
    cases G with
    | nil => rfl
    | cons r rs =>
      have hc : (if n ≤ 0 then 1 else n.toNat) = n.toNat := by
        rw [if_neg]; omega
      simp only [reformat_columns, List.isEmpty_cons, Bool.false_eq_true,
        if_false, hc]
      rcases hR : chunks n.toNat (r :: rs).flatten with _ | ⟨row, rest⟩
      · rfl
      · have hflat : ((row :: rest) : List (List Btn)).flatten =
            (r :: rs).flatten := by
          rw [← hR, chunks_flatten]
        simp only [reformat_columns, List.isEmpty_cons, Bool.false_eq_true,
          if_false, hc, hflat, hR]
  · intro G n hn
    cases G with
    | nil => rfl
    | cons r rs =>
      have hc : (if n ≤ 0 then 1 else n.toNat) = 1 := by rw [if_pos hn]
      simp only [reformat_columns, List.isEmpty_cons, Bool.false_eq_true,
        if_false, hc]
      norm_num

lemma move_tail_eq {α : Type} [Inhabited α] (kb2 : List (List α)) (t : Nat)
    (tc : Int) (btn : α) :
    (let kb3 := kb2 ++ List.replicate (((t : Int)) + 1 - (kb2.length : Int)).toNat ([] : List α)
     match pyIndex kb3.length (t : Int) with
     | none => none
     | some i =>
       let target_row := kb3.getD i []
       let tc0 : Int := if tc < 0 then 0 else tc
       let tcn : Nat := if (target_row.length : Int) < tc0 then target_row.length else tc0.toNat
       some (kb3.set i (target_row.take tcn ++ btn :: target_row.drop tcn))) =
    some (
      let kb3 := kb2 ++ List.replicate (t + 1 - kb2.length) ([] : List α)
      let target_row := kb3.getD t []
      let tcn : Nat :=
        if tc < 0 then 0
        else if (target_row.length : Int) < tc then target_row.length
        else tc.toNat
      kb3.set t (target_row.take tcn ++ btn :: target_row.drop tcn)) := by
  have hcount : (((t : Int)) + 1 - (kb2.length : Int)).toNat = t + 1 - kb2.length := by
    omega
  rw [hcount]
  set L := kb2 ++ List.replicate (t + 1 - kb2.length) ([] : List α) with hL
  have ht : t < L.length := by
    rw [hL]
    simp only [List.length_append, List.length_replicate]
    omega
  have hpy : pyIndex L.length (t : Int) = some t := by
    simp only [pyIndex]
    rw [if_neg (show ¬ ((t : Int) < 0) by omega)]
    rw [if_pos ⟨by omega, by exact_mod_cast ht⟩]
    simp
  simp only [hpy]
  set T := L.getD t ([] : List α) with hT
  have htc : (if (T.length : Int) < (if tc < 0 then 0 else tc) then T.length
      else (if tc < 0 then 0 else tc).toNat) =
      (if tc < 0 then 0 else if (T.length : Int) < tc then T.length else tc.toNat) := by
    by_cases h0 : tc < 0
    · simp only [if_pos h0]
      rw [if_neg (show ¬ ((T.length : Int) < 0) by omega)]
      rfl
    · simp only [if_neg h0]
  rw [htc]

/-- Lemma: `move_button` with a valid source and a natural target row index
computes exactly the algorithm of `move_button_claim`. -/
lemma move_button_eq_claim :
    ∀ (kb : Keyboard) (fr fc tr : Nat) (tc : Int),
      fr < kb.length → fc < (kb.getD fr []).length →
      move_button kb (fr : Int) (fc : Int) (tr : Int) tc =
        some (move_button_claim kb fr fc tr tc) := by
  intro kb fr fc tr tc hfr hfc
  have hkb : kb.isEmpty = false := by
    cases kb with
    | nil => simp at hfr
    | cons a l => rfl
  simp only [move_button, move_button_claim, hkb, Bool.false_eq_true, if_false]
  rw [if_neg (not_not_intro ⟨by omega, by exact_mod_cast hfr⟩)]
  simp only [Int.toNat_natCast]
  rw [if_neg (not_not_intro ⟨by omega, by exact_mod_cast hfc⟩)]
  by_cases hp : ((kb.getD fr []).eraseIdx fc).isEmpty = true
  · simp only [hp, if_true, true_and]
    by_cases htr : fr < tr
    · rw [if_pos (show (fr : Int) < (tr : Int) by exact_mod_cast htr),
        if_pos htr]
      have hdec : ((tr : Int) - 1) = ((tr - 1 : Nat) : Int) := by omega
      rw [hdec]
      exact move_tail_eq _ _ _ _
    · rw [if_neg (show ¬ ((fr : Int) < (tr : Int)) by exact_mod_cast htr),
        if_neg htr]
      exact move_tail_eq _ _ _ _
  · simp only [hp, Bool.false_eq_true, if_false, false_and]
    exact move_tail_eq _ _ _ _

/-- C1: for every grid with a valid source coordinate and a target row
index `to_r ≥ 0`, `move_button` performs exactly the algorithm stated by
the claim (source removal, pruning of an emptied source row with the
compensating decrement of a later target row index, growth with empty
rows, clamped positional insertion) and never raises; in particular
`move_button([[a],[b,c]], 0, 0, 1, 0) = [[a,b,c]]`. -/
theorem move_button_matches_claim :
    (∀ (kb : Keyboard) (fr fc tr : Nat) (tc : Int),
      fr < kb.length → fc < (kb.getD fr []).length →
      move_button kb (fr : Int) (fc : Int) (tr : Int) tc =
        some (move_button_claim kb fr fc tr tc)) ∧
    move_button ([[Btn.raw "a"], [Btn.raw "b", Btn.raw "c"]] : Keyboard) 0 0 1 0 =
      some [[Btn.raw "a", Btn.raw "b", Btn.raw "c"]] :=
  ⟨move_button_eq_claim, by decide⟩

/-- Witness for `move_button_matches_claim`: its universal part applied at
the concrete scenario grid of the claim. -/
theorem move_button_matches_claim_witness :
    move_button ([[Btn.raw "a"], [Btn.raw "b", Btn.raw "c"]] : Keyboard)
        ((0 : Nat) : Int) ((0 : Nat) : Int) ((1 : Nat) : Int) 0 =
      some (move_button_claim [[Btn.raw "a"], [Btn.raw "b", Btn.raw "c"]] 0 0 1 0) :=
  move_button_matches_claim.1 [[Btn.raw "a"], [Btn.raw "b", Btn.raw "c"]] 0 0 1 0
    (by decide) (by decide)

lemma total_buttons_cons {α : Type} (r : List α) (kb : List (List α)) :
    total_buttons (r :: kb) = r.length + total_buttons kb := by
  simp [total_buttons]

lemma total_buttons_set {α : Type} (kb : List (List α)) (i : Nat) (r : List α)
    (h : i < kb.length) :
    total_buttons (kb.set i r) + (kb.getD i []).length =
      total_buttons kb + r.length := by
  induction kb generalizing i with
  | nil => simp at h
  | cons x xs ih =>
    cases i with
    | zero => simp [total_buttons_cons, List.getD]; omega
    | succ n =>
      have h' : n < xs.length := by simpa using h
      have := ih n h'
      simp only [List.set, total_buttons_cons, List.getD_cons_succ]
      omega

lemma total_buttons_eraseIdx {α : Type} (kb : List (List α)) (i : Nat)
    (h : i < kb.length) :
    total_buttons (kb.eraseIdx i) + (kb.getD i []).length = total_buttons kb := by
  induction kb generalizing i with
  | nil => simp at h
  | cons x xs ih =>
    cases i with
    | zero =>
      simp only [total_buttons_cons, List.getD, List.eraseIdx]
      simp [total_buttons]
      omega
    | succ n =>
      have h' : n < xs.length := by simpa using h
      have := ih n h'
      simp only [List.eraseIdx, total_buttons_cons, List.getD_cons_succ]
      omega

lemma total_buttons_append_replicate_nil {α : Type} (kb : List (List α)) (n : Nat) :
    total_buttons (kb ++ List.replicate n ([] : List α)) = total_buttons kb := by
  unfold total_buttons
  rw [List.map_append, List.sum_append]
  have hrep : (List.replicate n ([] : List α)).map List.length =
      List.replicate n 0 := by
    simp
  rw [hrep, List.sum_replicate]
  simp

lemma getD_set_self {α : Type} (kb : List α) (i : Nat) (a d : α)
    (h : i < kb.length) : (kb.set i a).getD i d = a := by
  induction kb generalizing i with
  | nil => simp at h
  | cons x xs ih =>
    cases i with
    | zero => rfl
    | succ n =>
      have h' : n < xs.length := by simpa using h
      simpa [List.set, List.getD_cons_succ] using ih n h'

lemma len_insert_at {α : Type} (T : List α) (tc : Nat) (btn : α) :
    (T.take tc ++ btn :: T.drop tc).length = T.length + 1 := by
  simp only [List.length_append, List.length_take, List.length_cons,
    List.length_drop]
  omega

lemma pyIndex_lt (len : Nat) (i : Int) (j : Nat) (h : pyIndex len i = some j) :
    j < len := by
  simp only [pyIndex] at h
  set j' : Int := if i < 0 then (len : Int) + i else i with hj'
  by_cases hc : 0 ≤ j' ∧ j' < (len : Int)
  · rw [if_pos hc] at h
    cases h
    omega
  · rw [if_neg hc] at h
    cases h

/-- Whenever `move_button` returns a grid (does not raise), the total
button count is preserved. -/
lemma move_button_count {α : Type} [Inhabited α] (kb : List (List α))
    (fr fc tr tc : Int) (kb' : List (List α))
    (h : move_button kb fr fc tr tc = some kb') :
    total_buttons kb' = total_buttons kb := by
  simp only [move_button] at h
  by_cases h0 : kb.isEmpty = true
  · rw [if_pos h0] at h
    cases h
    rfl
  rw [if_neg h0] at h
  by_cases h1 : ¬ (0 ≤ fr ∧ fr < (kb.length : Int))
  · rw [if_pos h1] at h
    cases h
    rfl
  rw [if_neg h1] at h
  push_neg at h1
  by_cases h2 : ¬ (0 ≤ fc ∧ fc < ((kb.getD fr.toNat []).length : Int))
  · rw [if_pos h2] at h
    cases h
    rfl
  rw [if_neg h2] at h
  push_neg at h2
  have hfr : fr.toNat < kb.length := by omega
  have hfc : fc.toNat < (kb.getD fr.toNat []).length := by omega
  set row := kb.getD fr.toNat ([] : List α) with hrow
  set row1 := row.eraseIdx fc.toNat with hrow1
  set kb1 := kb.set fr.toNat row1 with hkb1
  have hlrow1 : row1.length + 1 = row.length := by
    rw [hrow1, List.length_eraseIdx_of_lt hfc]
    omega
  have hc1 : total_buttons kb1 + 1 = total_buttons kb := by
    have := total_buttons_set kb fr.toNat row1 hfr
    rw [← hrow, ← hkb1] at this
    omega
  by_cases hp : row1.isEmpty = true
  · simp only [hp, if_true] at h
    have hlkb1 : fr.toNat < kb1.length := by
      rw [hkb1]
      simpa using hfr
    have hc2 : total_buttons (kb1.eraseIdx fr.toNat) = total_buttons kb1 := by
      have hte := total_buttons_eraseIdx kb1 fr.toNat hlkb1
      have hgd : kb1.getD fr.toNat ([] : List α) = row1 := by
        rw [hkb1]
        exact getD_set_self kb fr.toNat row1 [] hfr
      rw [hgd] at hte
      have hlen0 : row1.length = 0 := by
        rw [isEmpty_iff_eq_nil] at hp
        simp [hp]
      omega
    rcases hpi : pyIndex ((kb1.eraseIdx fr.toNat ++
        List.replicate ((if fr < tr then tr - 1 else tr) + 1 -
          ((kb1.eraseIdx fr.toNat).length : Int)).toNat ([] : List α)).length)
        (if fr < tr then tr - 1 else tr) with _ | i
    · rw [hpi] at h
      cases h
    · rw [hpi] at h
      simp only [Option.some.injEq] at h
      subst h
      have hil := pyIndex_lt _ _ _ hpi
      set kb3 := kb1.eraseIdx fr.toNat ++
        List.replicate ((if fr < tr then tr - 1 else tr) + 1 -
          ((kb1.eraseIdx fr.toNat).length : Int)).toNat ([] : List α) with hkb3
      have hc3 : total_buttons kb3 = total_buttons kb1 := by
        rw [hkb3, total_buttons_append_replicate_nil, hc2]
      have hset := total_buttons_set kb3 i
        ((kb3.getD i []).take (if ((kb3.getD i []).length : Int) <
            (if tc < 0 then 0 else tc) then (kb3.getD i []).length
          else (if tc < 0 then 0 else tc).toNat) ++
          row.getD fc.toNat default ::
          (kb3.getD i []).drop (if ((kb3.getD i []).length : Int) <
            (if tc < 0 then 0 else tc) then (kb3.getD i []).length
          else (if tc < 0 then 0 else tc).toNat)) hil
      rw [len_insert_at] at hset
      omega
  · simp only [hp, Bool.false_eq_true, if_false] at h
    rcases hpi : pyIndex ((kb1 ++ List.replicate (tr + 1 -
        (kb1.length : Int)).toNat ([] : List α)).length) tr with _ | i
    · rw [hpi] at h
      cases h
    · rw [hpi] at h
      simp only [Option.some.injEq] at h
      subst h
      have hil := pyIndex_lt _ _ _ hpi
      set kb3 := kb1 ++ List.replicate (tr + 1 - (kb1.length : Int)).toNat
        ([] : List α) with hkb3
      have hc3 : total_buttons kb3 = total_buttons kb1 := by
        rw [hkb3, total_buttons_append_replicate_nil]
      have hset := total_buttons_set kb3 i
        ((kb3.getD i []).take (if ((kb3.getD i []).length : Int) <
            (if tc < 0 then 0 else tc) then (kb3.getD i []).length
          else (if tc < 0 then 0 else tc).toNat) ++
          row.getD fc.toNat default ::
          (kb3.getD i []).drop (if ((kb3.getD i []).length : Int) <
            (if tc < 0 then 0 else tc) then (kb3.getD i []).length
          else (if tc < 0 then 0 else tc).toNat)) hil
      rw [len_insert_at] at hset
      omega

/-- Counterexample to C4 as stated: with a perfectly valid source
coordinate, the out-of-range target row `-1` makes `move_button` raise an
`IndexError` (the source row is pruned, the grid becomes empty, and
Python's negative indexing of the empty grid fails) instead of clamping. -/
theorem move_button_negative_target_raises :
    move_button ([[Btn.raw "a"]] : Keyboard) 0 0 (-1) 0 = none := by decide

/-- C4 (amended): for every valid source coordinate and every target with
`to_row ≥ 0` (`to_col` an arbitrary integer), `move_button` returns a grid
— it never raises — with the same total button count; moreover whenever
`move_button` returns a grid at all (any integer target), the total button
count is preserved.  A negative `to_row` can raise `IndexError`, cf.
`move_button_negative_target_raises`. -/
theorem move_button_preserves_count :
    (∀ (kb : Keyboard) (fr fc tr : Nat) (tc : Int),
      fr < kb.length → fc < (kb.getD fr []).length →
      ∃ kb', move_button kb (fr : Int) (fc : Int) (tr : Int) tc = some kb' ∧
        total_buttons kb' = total_buttons kb) ∧
    (∀ (kb : Keyboard) (fr fc tr tc : Int) (kb' : Keyboard),
      move_button kb fr fc tr tc = some kb' →
      total_buttons kb' = total_buttons kb) := by
  constructor
  · intro kb fr fc tr tc hfr hfc
    refine ⟨move_button_claim kb fr fc tr tc, move_button_eq_claim kb fr fc tr tc hfr hfc, ?_⟩
    exact move_button_count kb fr fc tr tc _ (move_button_eq_claim kb fr fc tr tc hfr hfc)
  · intro kb fr fc tr tc kb' h
    exact move_button_count kb fr fc tr tc kb' h

/-- Witness for `move_button_preserves_count`, applied at a concrete grid
with an out-of-range (but non-negative) target. -/
theorem move_button_preserves_count_witness :
    ∃ kb', move_button ([[Btn.raw "a"], [Btn.raw "b", Btn.raw "c"]] : Keyboard)
        ((0 : Nat) : Int) ((0 : Nat) : Int) ((5 : Nat) : Int) (-7) = some kb' ∧
      total_buttons kb' =
        total_buttons ([[Btn.raw "a"], [Btn.raw "b", Btn.raw "c"]] : Keyboard) :=
  move_button_preserves_count.1 [[Btn.raw "a"], [Btn.raw "b", Btn.raw "c"]]
    0 0 5 (-7) (by decide) (by decide)

lemma validate_button_fst (r c : Nat) (b : Btn) :
    (validate_button r c b).1 = button_struct_ok b := by
  cases b with
  | raw s => rfl
  | dict d =>
    by_cases ht : d.text = none
    · simp [validate_button, button_struct_ok, ht]
    · cases hu : pyTruthyS d.url <;>
        cases hcd : pyTruthyS d.callback_data <;>
          cases hcb : pyTruthyS d.callback <;>
            cases hv : (validate_button_url (d.url.getD "")).1 <;>
              simp [validate_button, button_struct_ok, ht, hu, hcd, hcb, hv, pyOr] <;>
                (try split_ifs with hl) <;> (try simp_all) <;> decide

lemma validate_row_fst (ridx cidx : Nat) (row : List Btn) :
    (validate_row ridx cidx row).1 = row.all button_struct_ok := by
  induction row generalizing cidx with
  | nil => rfl
  | cons b rest ih =>
    simp only [List.all_cons]
    rw [← validate_button_fst ridx cidx b]
    cases hb : (validate_button ridx cidx b).1 with
    | false => simp [validate_row, hb]
    | true => simp [validate_row, hb, ih (cidx + 1)]

lemma validate_rows_fst (ridx : Nat) (kb : Keyboard) :
    (validate_rows ridx kb).1 = kb.all (fun row => row.all button_struct_ok) := by
  induction kb generalizing ridx with
  | nil => rfl
  | cons row rest ih =>
    simp only [List.all_cons]
    rw [← validate_row_fst ridx 0 row]
    cases hr : (validate_row ridx 0 row).1 with
    | false => simp [validate_rows, hr]
    | true => simp [validate_rows, hr, ih (ridx + 1)]

/-- Counterexample to C5 as stated: the grid
`[[{text: "", url: "https://example.com", callback_data: "x"}]]` has a
button with EMPTY text carrying BOTH a URL and an action token — the claim
requires it to be rejected on both counts — yet
`validate_keyboard_structure` accepts it (the code only checks that the
`text` key exists and that at least one target is present). -/
theorem validate_keyboard_structure_counterexample :
    (validate_keyboard_structure (some [[Btn.dict
        ⟨some "", some "https://example.com", some "x", none, none⟩]])).1 =
      true := by decide

/-- C5 (amended): `validate_keyboard_structure` accepts a grid iff every
button is a dict with a `text` key (empty text allowed) and at least one
truthy target — URL and action token may coexist — where a truthy URL
must validate and the first truthy token must fit in 64 UTF-8 bytes; a
`None` keyboard is accepted. -/
theorem validate_keyboard_structure_amended :
    (∀ kb : Keyboard, (validate_keyboard_structure (some kb)).1 =
      kb.all (fun row => row.all button_struct_ok)) ∧
    validate_keyboard_structure none = (true, "OK", none) := by
  refine ⟨?_, rfl⟩
  intro kb
  simp only [validate_keyboard_structure]
  exact validate_rows_fst 0 kb

lemma toList_append (a b : String) : (a ++ b).toList = a.toList ++ b.toList := by
  cases a
  cases b
  rfl

lemma utf8Len_append (a b : String) : utf8Len (a ++ b) = utf8Len a + utf8Len b := by
  unfold utf8Len
  rw [toList_append, List.map_append, List.sum_append]

lemma utf8TruncAux_le (l : List Char) (n : Nat) :
    ((utf8TruncAux l n).map Char.utf8Size).sum ≤ n := by
  induction l generalizing n with
  | nil => simp [utf8TruncAux]
  | cons c cs ih =>
    simp only [utf8TruncAux]
    by_cases h : c.utf8Size ≤ n
    · rw [if_pos h]
      simp only [List.map_cons, List.sum_cons]
      have := ih (n - c.utf8Size)
      omega
    · rw [if_neg h]
      simp

lemma utf8Len_truncate (s : String) (n : Nat) : utf8Len (utf8Truncate s n) ≤ n := by
  unfold utf8Truncate utf8Len
  exact utf8TruncAux_le s.toList n

lemma hexChar_utf8Size (k : Nat) : (hexChar k).utf8Size = 1 := by
  by_cases h : k < 16
  · interval_cases k <;> decide
  · unfold hexChar
    rw [List.getD_eq_default]
    · decide
    · have h16 : ("0123456789abcdef".toList).length = 16 := by decide
      omega

lemma utf8Len_make_short_id (rng : Nat → Fin 256) (pos n : Nat) :
    utf8Len (make_short_id rng pos n) = 2 * n := by
  have key : ∀ m : Nat,
      (((((List.range m).map fun i =>
        [hexChar ((rng (pos + i)).val / 16),
          hexChar ((rng (pos + i)).val % 16)]).flatten).map Char.utf8Size).sum) =
        2 * m := by
    intro m
    induction m with
    | zero => rfl
    | succ k ih =>
      rw [List.range_succ]
      simp only [List.map_append, List.flatten_append, List.map_cons,
        List.map_nil, List.sum_append, ih, List.flatten_cons,
        List.flatten_nil, List.append_nil, List.sum_cons, List.sum_nil,
        hexChar_utf8Size]
      omega
  unfold make_short_id utf8Len
  exact key n

/-- A URL the validator accepts always yields a truthy (non-empty)
normalized URL. -/
lemma validate_button_url_truthy (u : String)
    (h : (validate_button_url u).1 = true) :
    pyTruthyS (validate_button_url u).2 = true := by
  by_cases hu : u = ""
  · rw [hu] at h
    exact absurd h (by decide)
  rcases htg : tg_message_url_match (pyStrip u).toList with _ | ⟨g1, g2⟩
  · rcases hsplit : urlsplit_for_url (pyStrip u) with ⟨sch, _ | nl⟩
    · simp only [validate_button_url, if_neg hu, htg, hsplit] at h
      cases h
    · simp only [validate_button_url, if_neg hu, htg, hsplit] at h ⊢
      by_cases hsch : sch = "http".toList ∨ sch = "https".toList
      · by_cases hnl : nl = []
        · rw [if_neg (not_not_intro hsch), if_pos hnl] at h
          cases h
        · rw [if_neg (not_not_intro hsch), if_neg hnl]
          simp only [pyTruthyS, decide_eq_true_eq]
          intro heq
          rw [heq] at hsplit
          rw [show urlsplit_for_url "" = ([], some []) from by decide] at hsplit
          cases hsplit
          exact hnl rfl
      · rw [if_pos hsch] at h
        cases h
  · simp only [validate_button_url, if_neg hu, htg]
    simp only [pyTruthyS, decide_eq_true_eq]
    intro heq
    have : ("https://t.me/" ++ String.mk g1 ++ "/" ++ String.mk g2).toList =
        ("" : String).toList := by rw [heq]
    rw [toList_append, toList_append, toList_append] at this
    simp at this

/-- C3: a button whose action token exceeds 64 UTF-8 bytes makes the
builder store `{callback: token}` (the spec's `{action: token}`) in the
Long-Payload Store and emit a callback button whose token is
`kb_payload:` followed by the returned id; loading that id afterwards
returns the payload with the original oversized token under the key it
was stored with. -/
theorem long_token_externalized :
    ∀ (t tok : String) (st : CallbackStoreState),
      MAX_CALLBACK_BYTES < utf8Len tok →
      st.fail st.calls = false →
      ∃ st', build_inline_markup [[Btn.dict ⟨some t, none, some tok, none, none⟩]] st =
          ([[InlineBtn.cb t ("kb_payload:" ++ make_short_id st.rng st.pos 6)]], st') ∧
        get_payload st' (make_short_id st.rng st.pos 6) =
          some [("callback", tok)] := by
  intro t tok st hlen hf
  have htok : tok ≠ "" := by
    intro h
    rw [h] at hlen
    exact absurd hlen (by decide)
  have htr : pyTruthyS (some tok) = true := by
    simp [pyTruthyS, htok]
  have hcb : pyOr (pyOr (some tok) none) none = some tok := by
    simp [pyOr, htr]
  have hone : build_button (Btn.dict ⟨some t, none, some tok, none, none⟩) st =
      (InlineBtn.cb t ("kb_payload:" ++ make_short_id st.rng st.pos 6),
        { st with
            pos := st.pos + 6
            calls := st.calls + 1
            rows := (make_short_id st.rng st.pos 6, [("callback", tok)]) ::
              st.rows }) := by
    simp only [build_button, hcb, htr, if_true, Option.getD_some]
    rw [show pyTruthyS (none : Option String) = false from rfl]
    simp only [Bool.false_eq_true, if_false]
    rw [if_neg (by omega : ¬ utf8Len tok ≤ MAX_CALLBACK_BYTES)]
    simp only [store_payload, hf, Bool.false_eq_true, if_false]
    rw [if_neg (by decide : ¬ pyTruthyS (none : Option String) = true)]
  refine ⟨{ st with
      pos := st.pos + 6
      calls := st.calls + 1
      rows := (make_short_id st.rng st.pos 6, [("callback", tok)]) :: st.rows },
    ?_, ?_⟩
  · simp [build_inline_markup, build_row, hone]
  · simp only [get_payload]
    simp [List.lookup]

/-- Witness for `long_token_externalized`: a 90-byte token. -/
theorem long_token_externalized_witness :
    ∃ st', build_inline_markup
        [[Btn.dict ⟨some "T", none, some (String.mk (List.replicate 90 'a')), none, none⟩]]
        ⟨fun _ => 0, 0, fun _ => false, 0, []⟩ =
        ([[InlineBtn.cb "T" ("kb_payload:" ++
          make_short_id (fun _ => 0) 0 6)]], st') ∧
      get_payload st' (make_short_id (fun _ => 0) 0 6) =
        some [("callback", String.mk (List.replicate 90 'a'))] :=
  long_token_externalized "T" (String.mk (List.replicate 90 'a'))
    ⟨fun _ => 0, 0, fun _ => false, 0, []⟩ (by decide) rfl

lemma kb_payload_len_le (rng : Nat → Fin 256) (pos : Nat) :
    utf8Len ("kb_payload:" ++ make_short_id rng pos 6) ≤ MAX_CALLBACK_BYTES := by
  rw [utf8Len_append, utf8Len_make_short_id]
  decide

/-- The token branch of the builder only emits tokens within the limit. -/
lemma cb_emit_le (s text : String) (st : CallbackStoreState) (t c : String)
    (h : ((if utf8Len s ≤ MAX_CALLBACK_BYTES then
        ((InlineBtn.cb text s : InlineBtn), st)
      else
        match store_payload st [("callback", s)] with
        | (some pid, st1) => (InlineBtn.cb text ("kb_payload:" ++ pid), st1)
        | (none, st1) =>
          (InlineBtn.cb text (utf8Truncate s MAX_CALLBACK_BYTES), st1)).1 =
      InlineBtn.cb t c)) :
    utf8Len c ≤ MAX_CALLBACK_BYTES := by
  by_cases hle : utf8Len s ≤ MAX_CALLBACK_BYTES
  · rw [if_pos hle] at h
    injection h with hteq hceq
    subst hceq
    exact hle
  · rw [if_neg hle] at h
    rcases hsp : store_payload st [("callback", s)] with ⟨_ | pid, st1⟩
    · rw [hsp] at h
      injection h with hteq hceq
      subst hceq
      exact utf8Len_truncate _ _
    · rw [hsp] at h
      injection h with hteq hceq
      subst hceq
      simp only [store_payload] at hsp
      split at hsp
      · injection hsp with e1 e2
        exact Option.noConfusion e1
      · injection hsp with e1 e2
        injection e1 with e1'
        subst e1'
        exact kb_payload_len_le st.rng st.pos

/-- The no-target fallback of the builder stays within the limit. -/
lemma fb_emit_le (text : String) (t c : String)
    (h : InlineBtn.cb text (if MAX_CALLBACK_BYTES <
        utf8Len ("btn:" ++ String.mk (text.toList.take 20)) then
      utf8Truncate ("btn:" ++ String.mk (text.toList.take 20)) MAX_CALLBACK_BYTES
    else "btn:" ++ String.mk (text.toList.take 20)) = InlineBtn.cb t c) :
    utf8Len c ≤ MAX_CALLBACK_BYTES := by
  injection h with hteq hceq
  subst hceq
  split
  · exact utf8Len_truncate _ _
  · omega

lemma build_button_cb_le (b : Btn) (st : CallbackStoreState) (t c : String)
    (h : (build_button b st).1 = InlineBtn.cb t c) :
    utf8Len c ≤ MAX_CALLBACK_BYTES := by
  cases b with
  | raw s =>
    simp only [build_button, pyTruthyS, Bool.false_eq_true, if_false] at h
    exact fb_emit_le s t c h
  | dict d =>
    by_cases hu : pyTruthyS d.url = true
    · by_cases hv : (validate_button_url (d.url.getD "")).1 = true
      · have ht := validate_button_url_truthy _ hv
        simp only [build_button, hu, hv, if_true, ht] at h
        exact InlineBtn.noConfusion h
      · have hv' : (validate_button_url (d.url.getD "")).1 = false := by
          cases hx : (validate_button_url (d.url.getD "")).1
          · rfl
          · exact absurd hx hv
        simp only [build_button, hu, hv', Bool.false_eq_true, if_false, if_true,
          show pyTruthyS (none : Option String) = false from rfl] at h
        by_cases hcb : pyTruthyS (pyOr (pyOr d.callback_data d.callback) d.data) = true
        · rw [if_pos hcb] at h
          exact cb_emit_le _ _ st t c h
        · rw [if_neg hcb] at h
          exact fb_emit_le _ t c h
    · have hu' : pyTruthyS d.url = false := by
        cases hx : pyTruthyS d.url
        · rfl
        · exact absurd hx hu
      simp only [build_button, hu', Bool.false_eq_true, if_false] at h
      by_cases hcb : pyTruthyS (pyOr (pyOr d.callback_data d.callback) d.data) = true
      · rw [if_pos hcb] at h
        exact cb_emit_le _ _ st t c h
      · rw [if_neg hcb] at h
        exact fb_emit_le _ t c h

lemma build_row_cb_le (row : List Btn) :
    ∀ (st : CallbackStoreState) (b : InlineBtn), b ∈ (build_row row st).1 →
      ∀ t c, b = InlineBtn.cb t c → utf8Len c ≤ MAX_CALLBACK_BYTES := by
  induction row with
  | nil =>
    intro st b hb
    simp [build_row] at hb
  | cons x rest ih =>
    intro st b hb t c hbc
    simp only [build_row, List.mem_cons] at hb
    rcases hb with hb | hb
    · subst hb
      exact build_button_cb_le x st t c hbc
    · exact ih _ b hb t c hbc

/-- C10: every callback button emitted by the builder — a token passed
through unchanged, a `kb_payload:` reference, a byte-truncated token
after a store failure, or the truncated-text fallback — carries at most
`MAX_CALLBACK_BYTES` (64) UTF-8 bytes, for every grid and every store
state (including failing stores). -/
theorem build_inline_markup_callback_within_limit :
    ∀ (kb : Keyboard) (st : CallbackStoreState) (row : List InlineBtn),
      row ∈ (build_inline_markup kb st).1 → ∀ b ∈ row, ∀ t c,
      b = InlineBtn.cb t c → utf8Len c ≤ MAX_CALLBACK_BYTES := by
  intro kb
  induction kb with
  | nil =>
    intro st row hrow
    simp [build_inline_markup] at hrow
  | cons r rest ih =>
    intro st row hrow b hb t c hbc
    simp only [build_inline_markup] at hrow
    by_cases hune : ((build_row r st).1).isEmpty = true
    · rw [if_pos hune] at hrow
      exact ih _ row hrow b hb t c hbc
    · rw [if_neg hune] at hrow
      rcases List.mem_cons.mp hrow with hrow | hrow
      · subst hrow
        exact build_row_cb_le r st b hb t c hbc
      · exact ih _ row hrow b hb t c hbc

/-- Witness for `build_inline_markup_callback_within_limit`: the
truncated token emitted for an oversized token when the store fails. -/
theorem build_inline_markup_callback_within_limit_witness :
    utf8Len (utf8Truncate (String.mk (List.replicate 90 'a'))
        MAX_CALLBACK_BYTES) ≤ MAX_CALLBACK_BYTES :=
  build_inline_markup_callback_within_limit
    [[Btn.dict ⟨some "T", none, some (String.mk (List.replicate 90 'a')), none, none⟩]]
    ⟨fun _ => 0, 0, fun _ => true, 0, []⟩
    [InlineBtn.cb "T" (utf8Truncate (String.mk (List.replicate 90 'a'))
      MAX_CALLBACK_BYTES)]
    (by decide) _ (by decide) "T" _ rfl

/-- C6: when `apply_all` runs with the staged image absent while the
original has one (removal attempted), it aborts with the user-facing
message before any transport call, before the builder touches the
Long-Payload Store and before any repository write: the effect trace is
empty, the store state is untouched, and the session survives
unchanged. -/
theorem apply_all_removal_aborts :
    ∀ (sess : EditSession) (tr : Transport) (st : CallbackStoreState),
      sess.photo_file_id = none → sess.orig_photo_file_id ≠ none →
      apply_all sess tr st =
        { events := []
          answer := "Удаление медиа не поддерживается автоматически."
          session := some sess
          store := st } := by
  intro sess tr st hab horig
  simp only [apply_all, hab]
  rw [if_pos horig]
  rw [if_neg (by decide : ¬ pyTruthyS (none : Option String) = true)]

/-- Witness for `apply_all_removal_aborts` at a concrete session with a
staged image removal. -/
theorem apply_all_removal_aborts_witness :
    apply_all
        ⟨some 1, "chan", 5, some "t", some "PHOTO", [], some "t", none, [],
          none, false⟩
        ⟨TgResult.ok, TgResult.ok, TgResult.ok, TgResult.ok, true, true, true⟩
        ⟨fun _ => 0, 0, fun _ => false, 0, []⟩ =
      { events := []
        answer := "Удаление медиа не поддерживается автоматически."
        session := some ⟨some 1, "chan", 5, some "t", some "PHOTO", [],
          some "t", none, [], none, false⟩
        store := ⟨fun _ => 0, 0, fun _ => false, 0, []⟩ } :=
  apply_all_removal_aborts _ _ _ rfl (by decide)

/-- C7 (code bug): after a successful publish the repository row never
holds the published channel.  `update_post`'s `allowed` filter drops the
`published_channel` field that `cb_publish` passes, and `create_post`'s
INSERT omits the column, so on both publish paths the row's
`published_channel` stays at its previous value / NULL — even though the
other two publication coordinates and status=published are persisted, as
the concrete evaluation shows. -/
theorem publish_never_persists_channel :
    ("published_channel" ∉ update_post_set_columns
      ["status", "published_message_id", "published_link",
        "published_channel"]) ∧
    ("published_channel" ∉ create_post_columns) ∧
    (∀ (row : PostRow) (chan : String) (mid : Int) (now : String) (nid : Int),
      (cb_publish_persist row chan mid now nid).published_channel =
        (if pyTruthyI row.id then row.published_channel else none)) ∧
    (cb_publish_persist
        ⟨some 1, 9, some "body", none, some "[]", "draft", some "c0",
          some "u0", none, none, none⟩ "@chan" 42 "NOW" 7 =
      ⟨some 1, 9, some "body", none, some "[]", "published", some "c0",
        some "NOW", some 42, some "https://t.me/chan/42", none⟩) := by
  refine ⟨by decide, by decide, ?_, by decide⟩
  intro row chan mid now nid
  by_cases hid : pyTruthyI row.id = true
  · simp only [cb_publish_persist, hid, if_true, publish_update_row]
    rw [if_neg (by decide :
      ¬ "published_channel" ∈ update_post_set_columns
        ["status", "published_message_id", "published_link",
          "published_channel"])]
  · simp only [cb_publish_persist, hid, Bool.false_eq_true, if_false,
      create_post_row]
    rw [if_neg (by decide : ¬ "published_channel" ∈ create_post_columns)]

/-- Witness for `reformat_columns_idempotent` at a concrete grid. -/
theorem reformat_columns_idempotent_witness :
    reformat_columns (reformat_columns
        [[Btn.raw "a", Btn.raw "b", Btn.raw "c"], [Btn.raw "d"]] 2) 2 =
      reformat_columns [[Btn.raw "a", Btn.raw "b", Btn.raw "c"], [Btn.raw "d"]] 2 :=
  reformat_columns_idempotent.1
    [[Btn.raw "a", Btn.raw "b", Btn.raw "c"], [Btn.raw "d"]] 2 (by decide)

end KingStoreV
